import Mathlib

/-!
Verification of the backlink-based dead-page detector
(Netlify functions scan-backlinks.js, two variants, plus the public
variant embedded in the setup guide).

Shallow embedding notes:
- JS objects used as string-keyed maps are modelled as association
  lists in first-seen key order.  For non numeric-like keys this is
  exactly the JS object iteration order; numeric-like keys would be
  reordered by JS, which affects no property proved here, since every
  statement below is either order-insensitive or about determinism.
- The platform URL parser (new URL) is modelled as an oracle
  parse : String -> Option String returning the pathname, none meaning
  the constructor throws.
- Network outcomes are modelled as an explicit outcome type; a promise
  that resolves once is modelled by the first resolve call winning.
- Missing JS object fields are modelled with Option; JS truthiness of
  a string field is: present and nonempty.
-/

namespace ScreamingFixes

/-- JS truthiness of a possibly missing string field. -/
def jsTruthy : Option String → Bool
  | none => false
  | some s => !(s == "")

/-- One raw backlink item from the provider response
(fields url_to, url_from, domain_from, domain_from_rank). -/
structure RawEdge where
  url_to : Option String
  url_from : Option String
  domain_from : Option String
  domain_from_rank : Option Nat
deriving DecidableEq, Repr

/-- One entry of top_referrers. -/
structure Referrer where
  domain : Option String
  url : Option String
  domain_rank : Nat
  backlinks : Nat
deriving DecidableEq, Repr

/-- The per-target accumulator created by the grouping loops
(dead_page, target_url, backlink_count, referring_domains,
top_referrers, status_code). -/
structure Agg where
  dead_page : String
  target_url : Option String
  backlink_count : Nat
  referring_domains : List (Option String)
  top_referrers : List Referrer
  status_code : Option Nat
deriving DecidableEq, Repr

/-- The fresh accumulator object created when a grouping key is first
seen. -/
def initAgg (key : String) (url : Option String) : Agg :=
  { dead_page := key, target_url := url, backlink_count := 0,
    referring_domains := [], top_referrers := [], status_code := none }

/-- Insert-or-update on the association list modelling the JS object
groupedByTarget: a fresh key is appended (insertion order), an existing
key has its value updated in place. -/
def upsert (assoc : List (String × Agg)) (k : String) (f : Agg → Agg)
    (init : Agg) : List (String × Agg) :=
  match assoc with
  | [] => [(k, f init)]
  | (k', v) :: rest =>
      if k' = k then (k', f v) :: rest
      else (k', v) :: upsert rest k f init

/-- Referrer entry pushed by the first grouping variant
(lines 152-159): raw fields, rank defaulted with a JS or. -/
def mkRef1 (e : RawEdge) : Referrer :=
  { domain := e.domain_from, url := e.url_from,
    domain_rank := e.domain_from_rank.getD 0, backlinks := 1 }

/-- Per-edge update of the first grouping variant (lines 146-159):
count every edge, dedup-push the raw domain_from, push a top referrer
for every edge while the list is shorter than 10. -/
def step1 (e : RawEdge) (a : Agg) : Agg :=
  let a1 := { a with backlink_count := a.backlink_count + 1 }
  let a2 :=
    if a1.referring_domains.contains e.domain_from then a1
    else { a1 with referring_domains := a1.referring_domains ++ [e.domain_from] }
  if a2.top_referrers.length < 10 then
    { a2 with top_referrers := a2.top_referrers ++ [mkRef1 e] }
  else a2

/-- Per-edge update of the second grouping variant (lines 487-502):
count every edge; only a truthy, not yet seen domain_from is pushed to
referring_domains, and only such a push may also append a top referrer
while the list is shorter than 10. -/
def step2 (e : RawEdge) (a : Agg) : Agg :=
  let a1 := { a with backlink_count := a.backlink_count + 1 }
  match e.domain_from with
  | none => a1
  | some d =>
      if d = "" then a1
      else if a1.referring_domains.contains (some d) then a1
      else
        let a2 := { a1 with referring_domains := a1.referring_domains ++ [some d] }
        if a2.top_referrers.length < 10 then
          { a2 with top_referrers := a2.top_referrers ++
              [{ domain := some d, url := some (e.url_from.getD ""),
                 domain_rank := e.domain_from_rank.getD 0, backlinks := 1 }] }
        else a2

/-- Per-edge update of the public variant (lines 171-182): count every
edge, Set.add of the raw domain_from (modelled as dedup append), push a
top referrer for every edge while the list is shorter than 10. -/
def stepPub (e : RawEdge) (a : Agg) : Agg :=
  let a1 := { a with backlink_count := a.backlink_count + 1 }
  let a2 :=
    if a1.referring_domains.contains e.domain_from then a1
    else { a1 with referring_domains := a1.referring_domains ++ [e.domain_from] }
  if a2.top_referrers.length < 10 then
    { a2 with top_referrers := a2.top_referrers ++ [mkRef1 e] }
  else a2

/-- Grouping key of the first variant: new URL(url_to).pathname, with
the catch falling back to the raw value; a missing url_to makes the
URL constructor throw and the raw value undefined coerces to the
object key "undefined". -/
def targetKey1 (parse : String → Option String) (e : RawEdge) : String :=
  match e.url_to with
  | none => "undefined"
  | some s =>
      match parse s with
      | some p => p
      | none => s

/-- Grouping key for an edge with a present target URL (both guarded
variants): the parsed pathname, or the raw string when parsing fails. -/
def keyOfUrl (parse : String → Option String) (s : String) : String :=
  match parse s with
  | some p => p
  | none => s

/-- One iteration of the first grouping loop. -/
def agg1Step (parse : String → Option String) (assoc : List (String × Agg))
    (e : RawEdge) : List (String × Agg) :=
  let key := targetKey1 parse e
  upsert assoc key (step1 e) (initAgg key e.url_to)

/-- The grouping loop of the first variant (lines 122-160): every edge
is processed, missing target URLs included. -/
def aggregate1 (parse : String → Option String) (edges : List RawEdge) :
    List (String × Agg) :=
  edges.foldl (agg1Step parse) []

/-- One iteration of the second grouping loop: the continue skips an
edge whose url_to is missing or empty. -/
def agg2Step (parse : String → Option String) (assoc : List (String × Agg))
    (e : RawEdge) : List (String × Agg) :=
  match e.url_to with
  | none => assoc
  | some s =>
      if s = "" then assoc
      else upsert assoc (keyOfUrl parse s) (step2 e) (initAgg (keyOfUrl parse s) (some s))

/-- The grouping loop of the second variant (lines 462-503): an edge
whose url_to is missing or empty is skipped by the continue; otherwise
it is grouped under the parsed pathname or the raw URL string. -/
def aggregate2 (parse : String → Option String) (edges : List RawEdge) :
    List (String × Agg) :=
  edges.foldl (agg2Step parse) []

/-- One iteration of the public grouping loop: a missing or
unparseable target URL throws out of the loop. -/
def aggPubStep (parse : String → Option String) (assoc : List (String × Agg))
    (e : RawEdge) : Except String (List (String × Agg)) :=
  match e.url_to with
  | none => Except.error "Failed to parse API response"
  | some s =>
      match parse s with
      | none => Except.error "Failed to parse API response"
      | some p => Except.ok (upsert assoc p (stepPub e) (initAgg p (some s)))

/-- The grouping loop of the public variant (lines 156-183): the call
new URL(targetUrl).pathname is not guarded, so an edge whose target
URL is missing or unparseable throws; the enclosing catch turns this
into the parse-error result that aborts the whole aggregation. -/
def aggregatePublic (parse : String → Option String) (edges : List RawEdge) :
    Except String (List (String × Agg)) :=
  edges.foldlM (aggPubStep parse) []

/-- Sum of backlink_count over all accumulators of a grouping. -/
def sumCounts (assoc : List (String × Agg)) : Nat :=
  (assoc.map (fun p => p.2.backlink_count)).sum

/-- One grouped result after the mapping that replaces the
referring_domains list by its length (lines 506-510, resp. 165-170). -/
structure ResultItem where
  dead_page : String
  target_url : Option String
  backlink_count : Nat
  top_referrers : List Referrer
  referring_domains_count : Nat
  status_code : Option Nat
deriving DecidableEq, Repr

/-- The mapping step from accumulators to result items. -/
def toResults (assoc : List (String × Agg)) : List ResultItem :=
  assoc.map (fun p =>
    { dead_page := p.2.dead_page, target_url := p.2.target_url,
      backlink_count := p.2.backlink_count,
      top_referrers := p.2.top_referrers,
      referring_domains_count := p.2.referring_domains.length,
      status_code := p.2.status_code })

/-- Stable descending insertion by a Nat key: the new element goes in
front of the first element whose key is not larger, which is exactly
the stable behaviour of the ES2019 Array sort with the comparator
(a, b) => b.backlink_count - a.backlink_count. -/
def insertDesc (key : α → Nat) (x : α) : List α → List α
  | [] => [x]
  | y :: ys => if key y ≤ key x then x :: y :: ys else y :: insertDesc key x ys

/-- Stable sort descending by a Nat key, modelling Array.sort with the
comparator (a, b) => b.backlink_count - a.backlink_count. -/
def sortDesc (key : α → Nat) : List α → List α
  | [] => []
  | x :: xs => insertDesc key x (sortDesc key xs)

/-- The end of the second callDataForSEO variant (lines 506-515): map,
sort descending by backlink count, slice to 1000. -/
def groupRank2 (parse : String → Option String) (edges : List RawEdge) :
    List ResultItem :=
  (sortDesc (fun r => r.backlink_count) (toResults (aggregate2 parse edges))).take 1000

/-- One record of the dead-page output of filterDeadPages
(lines 322-331). -/
structure DeadRecord where
  dead_page : String
  dead_page_path : String
  status_code : Nat
  backlink_count : Nat
  referring_domains : Nat
  top_referrers : List Referrer
deriving DecidableEq, Repr

/-- startsWith on the character lists underlying the strings. -/
def strStarts (s p : String) : Bool :=
  p.data.isPrefixOf s.data

/-- The URL resolution of the filterDeadPages item body
(lines 307-313): target_url JS-or dead_page, prefixed with the scan
domain and exactly one separating slash when relative. -/
def resolveUrl (domain : String) (item : ResultItem) : String :=
  let u0 : String :=
    match item.target_url with
    | some s => if s = "" then item.dead_page else s
    | none => item.dead_page
  if u0 ≠ "" ∧ strStarts u0 "http" = false then
    "https://" ++ domain ++ (if strStarts u0 "/" then "" else "/") ++ u0
  else u0

/-- The per-item body of filterDeadPages continued: probe the resolved
URL, keep only statuses 404 and 410, and build the record; the path
fallback new URL(urlToCheck).pathname may throw, which the catch turns
into a dropped item (null). -/
def probeItem (parse : String → Option String) (probe : String → Nat)
    (domain : String) (item : ResultItem) : Option DeadRecord :=
  let u : String := resolveUrl domain item
  if u = "" then none
  else
    let status := probe u
    if status = 404 ∨ status = 410 then
      match (if item.dead_page ≠ "" then some item.dead_page else parse u) with
      | none => none
      | some p =>
          some { dead_page := u, dead_page_path := p, status_code := status,
                 backlink_count := item.backlink_count,
                 referring_domains := item.referring_domains_count,
                 top_referrers := item.top_referrers }
    else none

/-- The unsorted dead-page candidates of filterDeadPages: only the
first 100 grouped results are probed; within each batch of 10 the
Promise.all preserves input order and the results of consecutive
batches are concatenated, so the candidate list is order-equivalent to
a sequential filterMap over the first 100 items. -/
def deadCandidates (parse : String → Option String) (probe : String → Nat)
    (domain : String) (results : List ResultItem) : List DeadRecord :=
  (results.take 100).filterMap (probeItem parse probe domain)

/-- filterDeadPages (lines 295-352): probe the first 100 grouped
results in batches and sort the surviving records descending by
backlink count. -/
def filterDeadPages (parse : String → Option String) (probe : String → Nat)
    (domain : String) (results : List ResultItem) : List DeadRecord :=
  sortDesc (fun r => r.backlink_count) (deadCandidates parse probe domain results)

/-- Grouping and ranking of the batch-probing variant as one pipeline:
callDataForSEO grouping (second variant) followed by filterDeadPages. -/
def pipelineScan (parse : String → Option String) (probe : String → Nat)
    (domain : String) (edges : List RawEdge) : List DeadRecord :=
  filterDeadPages parse probe domain (groupRank2 parse edges)

/-- One record of the public variant result list, after status_code is
set and referring_domains is replaced by the Set size (lines 190-197). -/
structure PubRecord where
  dead_page : String
  target_url : Option String
  backlink_count : Nat
  referring_domains : Nat
  top_referrers : List Referrer
  status_code : Nat
deriving DecidableEq, Repr

/-- The per-item body of the public dead-status filter (lines 190-197):
keep statuses 404, 410 and 0, and record status JS-or 404, so a 0
status is stored as 404. -/
def pubStep (probe : String → Nat) (a : Agg) : Option PubRecord :=
  let status := probe (a.target_url.getD "")
  if status = 404 ∨ status = 410 ∨ status = 0 then
    some { dead_page := a.dead_page, target_url := a.target_url,
           backlink_count := a.backlink_count,
           referring_domains := a.referring_domains.length,
           top_referrers := a.top_referrers,
           status_code := if status = 0 then 404 else status }
  else none

/-- The probe-filter-sort-slice tail of the public callDataForSEO
(lines 186-202): probe the first 100 grouped targets sequentially,
keep the dead ones, sort descending by backlink count, slice to 1000.
In the source every target_url here is a present string, since an
absent one would already have thrown during grouping. -/
def publicRank (probe : String → Nat) (assoc : List (String × Agg)) :
    List PubRecord :=
  (sortDesc (fun r => r.backlink_count)
    (((assoc.map (fun p => p.2)).take 100).filterMap (pubStep probe))).take 1000

/-- Outcome of one network request as seen by the event handlers. -/
inductive NetOutcome
  | response (status : Nat)
  | err
  | timedOut
deriving DecidableEq, Repr

/-- The two request outcomes an environment holds ready for one call
of checkUrlStatus: the lightweight HEAD and the fallback GET. -/
structure ProbeEnv where
  headOutcome : NetOutcome
  getOutcome : NetOutcome
deriving DecidableEq, Repr

/-- One outbound probe request as issued by checkUrlStatus. -/
structure HttpReq where
  method : String
  url : String
  timeoutMs : Nat
deriving DecidableEq, Repr

/-- checkUrlStatus of the batch-probing variant (lines 358-409),
returning the resolved status and the definitely issued requests.
The promise resolves once, first call wins:
- an unparseable URL resolves 0 before any request;
- a HEAD response resolves its status;
- a HEAD timeout resolves 0 directly (the timeout handler destroys the
  request and resolves 0, so a fallback result can no longer win);
- a HEAD transport error issues the fallback GET with the same URL and
  the same 8000 ms timeout; its response status wins, and its error or
  timeout resolves 0. -/
def checkUrlStatusModel (parseOk : String → Bool) (env : ProbeEnv)
    (url : String) : Nat × List HttpReq :=
  if parseOk url = false then (0, [])
  else
    match env.headOutcome with
    | NetOutcome.response n => (n, [⟨"HEAD", url, 8000⟩])
    | NetOutcome.timedOut => (0, [⟨"HEAD", url, 8000⟩])
    | NetOutcome.err =>
        match env.getOutcome with
        | NetOutcome.response n => (n, [⟨"HEAD", url, 8000⟩, ⟨"GET", url, 8000⟩])
        | NetOutcome.err => (0, [⟨"HEAD", url, 8000⟩, ⟨"GET", url, 8000⟩])
        | NetOutcome.timedOut => (0, [⟨"HEAD", url, 8000⟩, ⟨"GET", url, 8000⟩])

/-- checkUrlStatus of the public variant (lines 221-247): the whole
body is in a try/catch, an unparseable URL resolves 0 with no request;
a single HEAD with a 5000 ms timeout, error and timeout resolve 0. -/
def checkUrlStatusPublic (parseOk : String → Bool) (head : NetOutcome)
    (url : String) : Nat × List HttpReq :=
  if parseOk url = false then (0, [])
  else
    match head with
    | NetOutcome.response n => (n, [⟨"HEAD", url, 5000⟩])
    | NetOutcome.err => (0, [⟨"HEAD", url, 5000⟩])
    | NetOutcome.timedOut => (0, [⟨"HEAD", url, 5000⟩])

/-- Domain normalization (lines 42-47 of the public handler, identical
in both other handlers): lowercase, strip one leading http(s) scheme,
strip one leading www. label, strip one trailing slash, keep the part
before the first remaining slash.  Implemented on the character lists
underlying the strings; toLower is the ASCII case map, which matches
the JS toLowerCase on the ASCII domain names this code handles. -/
def normalizeDomain (s : String) : String :=
  let cs := s.data.map Char.toLower
  let cs := if ("https://".data).isPrefixOf cs then cs.drop 8
            else if ("http://".data).isPrefixOf cs then cs.drop 7
            else cs
  let cs := if ("www.".data).isPrefixOf cs then cs.drop 4 else cs
  let cs := if cs.getLast? = some '/' then cs.dropLast else cs
  String.mk (cs.takeWhile (fun c => c ≠ '/'))

/-- The rate-limit cache key (line 51): normalized domain, a dash, the
date part of the current ISO timestamp. -/
def rateLimitKey (normalizedDomain today : String) : String :=
  normalizedDomain ++ "-" ++ today

/-- HTTP method of the incoming event, as far as the handlers inspect
it: OPTIONS, POST, or anything else. -/
inductive HMethod
  | options
  | post
  | getM
deriving DecidableEq, Repr

/-- The domain field of the parsed request body: absent (or a falsy
non-string such as null or 0), a string, or a truthy non-string value
on which toLowerCase throws a TypeError carrying the given message. -/
inductive DomainField
  | absent
  | str (s : String)
  | nonStringTruthy (errMsg : String)
deriving DecidableEq, Repr

/-- Outcome of JSON.parse(event.body or empty object): a throw with a
message, or a parsed object whose domain field is described. -/
inductive BodyParse
  | throwErr (msg : String)
  | parsed (domain : DomainField)
deriving DecidableEq, Repr

/-- The incoming event as far as the scan handlers inspect it. -/
structure Event where
  httpMethod : HMethod
  body : BodyParse
deriving DecidableEq, Repr

/-- The four response headers every branch of every handler attaches. -/
structure RespHeaders where
  accessControlAllowOrigin : String
  accessControlAllowHeaders : String
  accessControlAllowMethods : String
  contentType : String
deriving DecidableEq, Repr

/-- The constant headers object (lines 9-14). -/
def corsHeaders : RespHeaders :=
  { accessControlAllowOrigin := "*",
    accessControlAllowHeaders := "Content-Type",
    accessControlAllowMethods := "POST, OPTIONS",
    contentType := "application/json" }

/-- The response body: the empty string of the OPTIONS branch, or one
of the JSON.stringify shapes the handlers build. -/
inductive BodyVal
  | empty
  | errJson (error : String)
  | rateLimitJson (error message nextScanAvailable : String)
  | successPub (success : Bool) (domain scannedAt : String)
      (results : List PubRecord)
  | successScan (success : Bool) (domain scannedAt : String)
      (results : List DeadRecord)
      (totalUrlsFromApi urlsChecked deadPagesFound : Nat)
deriving DecidableEq, Repr

/-- One handler response. -/
structure Response where
  statusCode : Nat
  headers : RespHeaders
  body : BodyVal
deriving DecidableEq, Repr

/-- Environment of the public handler: credentials and the resolved
value of its callDataForSEO promise (which never rejects: it resolves
either an error object or the ranked results). -/
structure PubEnv where
  login : Option String
  password : Option String
  apiResult : Except String (List PubRecord)
deriving Repr

/-- The public handler (public variant lines 7-110) with its rate
limiter.  State passing makes the module-level rateLimitCache explicit:
the handler receives the current key set and returns the possibly
extended one.  Every branch is a returned response, the try/catch
around the body means the embedding is a total function: a body-parse
throw or a toLowerCase throw lands in the catch branch. -/
def handlerPublic (ev : Event) (env : PubEnv) (today now : String)
    (cache : List String) : Response × List String :=
  if ev.httpMethod = HMethod.options then
    ({ statusCode := 200, headers := corsHeaders, body := BodyVal.empty }, cache)
  else if ev.httpMethod ≠ HMethod.post then
    ({ statusCode := 405, headers := corsHeaders,
       body := BodyVal.errJson "Method not allowed" }, cache)
  else
    match ev.body with
    | BodyParse.throwErr _ =>
        ({ statusCode := 500, headers := corsHeaders,
           body := BodyVal.errJson "Internal server error" }, cache)
    | BodyParse.parsed df =>
        match df with
        | DomainField.absent =>
            ({ statusCode := 400, headers := corsHeaders,
               body := BodyVal.errJson "Domain is required" }, cache)
        | DomainField.nonStringTruthy _ =>
            ({ statusCode := 500, headers := corsHeaders,
               body := BodyVal.errJson "Internal server error" }, cache)
        | DomainField.str s =>
            if s = "" then
              ({ statusCode := 400, headers := corsHeaders,
                 body := BodyVal.errJson "Domain is required" }, cache)
            else
              let norm := normalizeDomain s
              let key := rateLimitKey norm today
              if cache.contains key then
                ({ statusCode := 429, headers := corsHeaders,
                   body := BodyVal.rateLimitJson "Rate limit exceeded"
                     "Free scan limit reached for this domain. Try again tomorrow or add your own DataForSEO API key."
                     "tomorrow" }, cache)
              else if jsTruthy env.login = false ∨ jsTruthy env.password = false then
                ({ statusCode := 500, headers := corsHeaders,
                   body := BodyVal.errJson "API not configured" }, cache)
              else
                match env.apiResult with
                | Except.error e =>
                    ({ statusCode := 500, headers := corsHeaders,
                       body := BodyVal.errJson e }, cache)
                | Except.ok results =>
                    ({ statusCode := 200, headers := corsHeaders,
                       body := BodyVal.successPub true norm now results },
                     key :: cache)

/-- Environment of the batch-probing handler: credentials, the
resolved callDataForSEO value, and the oracles filterDeadPages uses. -/
structure ScanEnv where
  login : Option String
  password : Option String
  apiResult : Except String (List ResultItem)
  parse : String → Option String
  probe : String → Nat

/-- The batch-probing handler (lines 197-289): no rate limiter, the
catch branch includes the thrown message, the success body carries the
debug counters. -/
def handlerScan (ev : Event) (env : ScanEnv) (now : String) : Response :=
  if ev.httpMethod = HMethod.options then
    { statusCode := 200, headers := corsHeaders, body := BodyVal.empty }
  else if ev.httpMethod ≠ HMethod.post then
    { statusCode := 405, headers := corsHeaders,
      body := BodyVal.errJson "Method not allowed" }
  else
    match ev.body with
    | BodyParse.throwErr msg =>
        { statusCode := 500, headers := corsHeaders,
          body := BodyVal.errJson ("Internal server error: " ++ msg) }
    | BodyParse.parsed df =>
        match df with
        | DomainField.absent =>
            { statusCode := 400, headers := corsHeaders,
              body := BodyVal.errJson "Domain is required" }
        | DomainField.nonStringTruthy msg =>
            { statusCode := 500, headers := corsHeaders,
              body := BodyVal.errJson ("Internal server error: " ++ msg) }
        | DomainField.str s =>
            if s = "" then
              { statusCode := 400, headers := corsHeaders,
                body := BodyVal.errJson "Domain is required" }
            else
              let norm := normalizeDomain s
              if jsTruthy env.login = false ∨ jsTruthy env.password = false then
                { statusCode := 500, headers := corsHeaders,
                  body := BodyVal.errJson "API not configured" }
              else
                match env.apiResult with
                | Except.error e =>
                    { statusCode := 500, headers := corsHeaders,
                      body := BodyVal.errJson e }
                | Except.ok results =>
                    let dead := filterDeadPages env.parse env.probe norm results
                    { statusCode := 200, headers := corsHeaders,
                      body := BodyVal.successScan true norm now dead
                        results.length (min results.length 100) dead.length }

/-! Helper lemmas about the stable descending sort. -/

theorem mem_insertDesc {α : Type} (key : α → Nat) (x : α) (l : List α) (z : α) :
    z ∈ insertDesc key x l ↔ z = x ∨ z ∈ l := by
  induction l with
  | nil => simp [insertDesc]
  | cons y ys ih =>
      by_cases h : key y ≤ key x
      · simp [insertDesc, h]
      · simp [insertDesc, h, ih]
        tauto

theorem length_insertDesc {α : Type} (key : α → Nat) (x : α) (l : List α) :
    (insertDesc key x l).length = l.length + 1 := by
  induction l with
  | nil => simp [insertDesc]
  | cons y ys ih =>
      by_cases h : key y ≤ key x
      · simp [insertDesc, h]
      · simp [insertDesc, h, ih]

theorem mem_sortDesc {α : Type} (key : α → Nat) (l : List α) (z : α) :
    z ∈ sortDesc key l ↔ z ∈ l := by
  induction l with
  | nil => simp [sortDesc]
  | cons y ys ih => simp [sortDesc, mem_insertDesc, ih]

theorem length_sortDesc {α : Type} (key : α → Nat) (l : List α) :
    (sortDesc key l).length = l.length := by
  induction l with
  | nil => rfl
  | cons y ys ih => simp [sortDesc, length_insertDesc, ih]

theorem sorted_insertDesc {α : Type} (key : α → Nat) (x : α) (l : List α)
    (h : l.Sorted (fun a b => key b ≤ key a)) :
    (insertDesc key x l).Sorted (fun a b => key b ≤ key a) := by
  induction l with
  | nil => simp [insertDesc]
  | cons y ys ih =>
      rw [List.sorted_cons] at h
      by_cases hxy : key y ≤ key x
      · rw [insertDesc, if_pos hxy, List.sorted_cons]
        refine ⟨?_, ?_⟩
        · intro b hb
          rcases List.mem_cons.mp hb with hb | hb
          · exact hb ▸ hxy
          · exact Nat.le_trans (h.1 b hb) hxy
        · rw [List.sorted_cons]
          exact h
      · rw [insertDesc, if_neg hxy, List.sorted_cons]
        refine ⟨?_, ih h.2⟩
        intro b hb
        rcases (mem_insertDesc key x ys b).mp hb with hb | hb
        · exact hb ▸ Nat.le_of_lt (Nat.lt_of_not_le hxy)
        · exact h.1 b hb

theorem sorted_sortDesc {α : Type} (key : α → Nat) (l : List α) :
    (sortDesc key l).Sorted (fun a b => key b ≤ key a) := by
  induction l with
  | nil => simp [sortDesc]
  | cons y ys ih => exact sorted_insertDesc key y _ ih

theorem filter_insertDesc {α : Type} (key : α → Nat) (k : Nat) (x : α)
    (l : List α) :
    (insertDesc key x l).filter (fun a => key a == k) =
      if key x = k then x :: l.filter (fun a => key a == k)
      else l.filter (fun a => key a == k) := by
  induction l with
  | nil =>
      by_cases h : key x = k <;> simp [insertDesc, List.filter_cons, h]
  | cons y ys ih =>
      rw [insertDesc]
      by_cases hxy : key y ≤ key x
      · rw [if_pos hxy]
        by_cases h : key x = k <;> by_cases hy : key y = k <;>
          simp [List.filter_cons, h, hy]
      · rw [if_neg hxy]
        have hlt : key x < key y := Nat.lt_of_not_le hxy
        by_cases h : key x = k
        · have hy : ¬ key y = k := by omega
          simp [List.filter_cons, h, hy, ih]
        · by_cases hy : key y = k <;> simp [List.filter_cons, h, hy, ih]

/-- Stability of the descending sort: the elements of any fixed key
keep their input order (the filtered subsequence at each key value is
unchanged). -/
theorem filter_sortDesc {α : Type} (key : α → Nat) (k : Nat) (l : List α) :
    (sortDesc key l).filter (fun a => key a == k) =
      l.filter (fun a => key a == k) := by
  induction l with
  | nil => rfl
  | cons y ys ih =>
      rw [sortDesc, filter_insertDesc]
      by_cases h : key y = k <;> simp [List.filter_cons, h, ih]

/-! Helper lemmas about the grouping loops. -/

theorem sumCounts_nil : sumCounts [] = 0 := rfl

theorem sumCounts_cons (k : String) (a : Agg) (rest : List (String × Agg)) :
    sumCounts ((k, a) :: rest) = a.backlink_count + sumCounts rest := by
  simp [sumCounts]

theorem step1_count (e : RawEdge) (a : Agg) :
    (step1 e a).backlink_count = a.backlink_count + 1 := by
  rw [step1]
  split_ifs <;> rfl

theorem step2_count (e : RawEdge) (a : Agg) :
    (step2 e a).backlink_count = a.backlink_count + 1 := by
  rw [step2]
  cases e.domain_from with
  | none => rfl
  | some d => dsimp only; split_ifs <;> rfl

theorem stepPub_count (e : RawEdge) (a : Agg) :
    (stepPub e a).backlink_count = a.backlink_count + 1 := by
  rw [stepPub]
  split_ifs <;> rfl

theorem sumCounts_upsert (assoc : List (String × Agg)) (k : String)
    (f : Agg → Agg) (init : Agg)
    (hf : ∀ a, (f a).backlink_count = a.backlink_count + 1)
    (hi : init.backlink_count = 0) :
    sumCounts (upsert assoc k f init) = sumCounts assoc + 1 := by
  induction assoc with
  | nil => simp [upsert, sumCounts, hf, hi]
  | cons p rest ih =>
      obtain ⟨k', v⟩ := p
      by_cases h : k' = k
      · simp [upsert, h, sumCounts_cons, hf]
        omega
      · simp [upsert, h, sumCounts_cons, ih]
        omega

/-- Every value stored by an upsert satisfies an invariant preserved
by the update and established on the updated fresh object. -/
theorem upsert_forall (P : Agg → Prop) (k : String) (f : Agg → Agg)
    (init : Agg) (hf : ∀ a, P a → P (f a)) (hi : P (f init)) :
    ∀ (assoc : List (String × Agg)), (∀ kv ∈ assoc, P kv.2) →
      ∀ kv ∈ upsert assoc k f init, P kv.2 := by
  intro assoc
  induction assoc with
  | nil =>
      intro _ kv hkv
      simp [upsert] at hkv
      rw [hkv]
      exact hi
  | cons p rest ih =>
      obtain ⟨k', v⟩ := p
      intro h kv hkv
      by_cases hk : k' = k
      · rw [upsert, if_pos hk] at hkv
        rcases List.mem_cons.mp hkv with hkv | hkv
        · rw [hkv]
          exact hf v (h (k', v) (List.mem_cons_self _ _))
        · exact h kv (List.mem_cons_of_mem _ hkv)
      · rw [upsert, if_neg hk] at hkv
        rcases List.mem_cons.mp hkv with hkv | hkv
        · rw [hkv]
          exact h (k', v) (List.mem_cons_self _ _)
        · exact ih (fun kv hkv => h kv (List.mem_cons_of_mem _ hkv)) kv hkv

theorem upsert_key_mem (assoc : List (String × Agg)) (k : String)
    (f : Agg → Agg) (init : Agg) :
    k ∈ (upsert assoc k f init).map Prod.fst := by
  induction assoc with
  | nil => simp [upsert]
  | cons p rest ih =>
      obtain ⟨k', v⟩ := p
      by_cases h : k' = k
      · simp [upsert, h]
      · simp [upsert, h]
        right
        simpa using ih

theorem upsert_keys_mono (assoc : List (String × Agg)) (k k₀ : String)
    (f : Agg → Agg) (init : Agg) (h : k₀ ∈ assoc.map Prod.fst) :
    k₀ ∈ (upsert assoc k f init).map Prod.fst := by
  induction assoc with
  | nil => simp at h
  | cons p rest ih =>
      obtain ⟨k', v⟩ := p
      by_cases hk : k' = k
      · simpa [upsert, hk] using h
      · rw [upsert, if_neg hk]
        rw [List.map_cons] at h ⊢
        rcases List.mem_cons.mp h with h | h
        · exact List.mem_cons.mpr (Or.inl h)
        · exact List.mem_cons.mpr (Or.inr (ih h))

/-- Folding any per-edge transform that preserves a per-value
invariant keeps every stored value inside the invariant. -/
theorem foldl_forall (P : Agg → Prop)
    (g : List (String × Agg) → RawEdge → List (String × Agg))
    (hg : ∀ assoc e, (∀ kv ∈ assoc, P kv.2) → ∀ kv ∈ g assoc e, P kv.2) :
    ∀ (edges : List RawEdge) (assoc : List (String × Agg)),
      (∀ kv ∈ assoc, P kv.2) → ∀ kv ∈ edges.foldl g assoc, P kv.2 := by
  intro edges
  induction edges with
  | nil => intro assoc h kv hkv; exact h kv hkv
  | cons e es ih => intro assoc h; exact ih _ (hg assoc e h)

theorem sumCounts_foldl_agg2 (parse : String → Option String) :
    ∀ (edges : List RawEdge) (assoc : List (String × Agg)),
      sumCounts (edges.foldl (agg2Step parse) assoc) =
        sumCounts assoc + (edges.filter (fun e => jsTruthy e.url_to)).length := by
  intro edges
  induction edges with
  | nil => intro assoc; simp
  | cons e es ih =>
      intro assoc
      rw [List.foldl_cons, ih]
      cases h : e.url_to with
      | none => simp [agg2Step, h, jsTruthy, List.filter_cons]
      | some s =>
          by_cases hs : s = ""
          · simp [agg2Step, h, hs, jsTruthy, List.filter_cons]
          · have hup := sumCounts_upsert assoc (keyOfUrl parse s) (step2 e)
              (initAgg (keyOfUrl parse s) (some s)) (step2_count e) rfl
            simp [agg2Step, h, hs, jsTruthy, List.filter_cons, hup]
            omega

theorem sumCounts_foldl_agg1 (parse : String → Option String) :
    ∀ (edges : List RawEdge) (assoc : List (String × Agg)),
      sumCounts (edges.foldl (agg1Step parse) assoc) =
        sumCounts assoc + edges.length := by
  intro edges
  induction edges with
  | nil => intro assoc; simp
  | cons e es ih =>
      intro assoc
      rw [List.foldl_cons, ih]
      have hup := sumCounts_upsert assoc (targetKey1 parse e) (step1 e)
        (initAgg (targetKey1 parse e) e.url_to) (step1_count e) rfl
      simp [agg1Step, hup]
      omega

/-- The referrer-cap invariant of the second grouping variant. -/
def refInv (a : Agg) : Prop :=
  a.top_referrers.length ≤ 10 ∧
    a.top_referrers.length ≤ a.referring_domains.length

theorem step2_refInv (e : RawEdge) (a : Agg) (h : refInv a) :
    refInv (step2 e a) := by
  obtain ⟨h10, hrd⟩ := h
  rw [refInv, step2]
  cases e.domain_from with
  | none => exact ⟨h10, hrd⟩
  | some d =>
      dsimp only
      split_ifs <;> simp_all <;> omega

theorem step1_top10 (e : RawEdge) (a : Agg)
    (h : a.top_referrers.length ≤ 10) :
    (step1 e a).top_referrers.length ≤ 10 := by
  rw [step1]
  split_ifs <;> simp_all <;> omega

theorem stepPub_top10 (e : RawEdge) (a : Agg)
    (h : a.top_referrers.length ≤ 10) :
    (stepPub e a).top_referrers.length ≤ 10 := by
  rw [stepPub]
  split_ifs <;> simp_all <;> omega

theorem aggregate2_refInv (parse : String → Option String)
    (edges : List RawEdge) :
    ∀ kv ∈ aggregate2 parse edges, refInv kv.2 := by
  rw [aggregate2]
  refine foldl_forall refInv (agg2Step parse) ?_ edges [] (by intro kv hkv; simp at hkv)
  intro assoc e h kv hkv
  cases hu : e.url_to with
  | none => simp only [agg2Step, hu] at hkv; exact h kv hkv
  | some s =>
      simp only [agg2Step, hu] at hkv
      by_cases hs : s = ""
      · rw [if_pos hs] at hkv
        exact h kv hkv
      · rw [if_neg hs] at hkv
        refine upsert_forall refInv _ _ _ (step2_refInv e) ?_ assoc h kv hkv
        exact step2_refInv e _ ⟨Nat.zero_le 10, Nat.le_refl 0⟩

theorem aggregate1_top10 (parse : String → Option String)
    (edges : List RawEdge) :
    ∀ kv ∈ aggregate1 parse edges, kv.2.top_referrers.length ≤ 10 := by
  rw [aggregate1]
  refine foldl_forall (fun a => a.top_referrers.length ≤ 10) (agg1Step parse)
    ?_ edges [] (by intro kv hkv; simp at hkv)
  intro assoc e h kv hkv
  rw [agg1Step] at hkv
  refine upsert_forall (fun a => a.top_referrers.length ≤ 10) _ _ _
    (step1_top10 e) ?_ assoc h kv hkv
  exact step1_top10 e _ (Nat.zero_le 10)

/-- Every stored accumulator has a positive backlink count: it was
built by at least one per-edge update. -/
theorem aggregate2_count_pos (parse : String → Option String)
    (edges : List RawEdge) :
    ∀ kv ∈ aggregate2 parse edges, 1 ≤ kv.2.backlink_count := by
  rw [aggregate2]
  refine foldl_forall (fun a => 1 ≤ a.backlink_count) (agg2Step parse)
    ?_ edges [] (by intro kv hkv; simp at hkv)
  intro assoc e h kv hkv
  cases hu : e.url_to with
  | none => simp only [agg2Step, hu] at hkv; exact h kv hkv
  | some s =>
      simp only [agg2Step, hu] at hkv
      by_cases hs : s = ""
      · rw [if_pos hs] at hkv
        exact h kv hkv
      · rw [if_neg hs] at hkv
        refine upsert_forall (fun a => 1 ≤ a.backlink_count) _ _ _ ?_ ?_ assoc h kv hkv
        · intro a ha
          have hc := step2_count e a
          simp [hc]
        · have hc := step2_count e (initAgg (keyOfUrl parse s) (some s))
          simp [hc]

/-- Monotonicity: a key present in the accumulator survives the rest
of the second grouping loop. -/
theorem agg2_keys_mono (parse : String → Option String) :
    ∀ (edges : List RawEdge) (assoc : List (String × Agg)) (k₀ : String),
      k₀ ∈ assoc.map Prod.fst →
      k₀ ∈ (edges.foldl (agg2Step parse) assoc).map Prod.fst := by
  intro edges
  induction edges with
  | nil => intro assoc k₀ h; exact h
  | cons e es ih =>
      intro assoc k₀ h
      rw [List.foldl_cons]
      refine ih _ k₀ ?_
      cases hu : e.url_to with
      | none => simp only [agg2Step, hu]; exact h
      | some s =>
          simp only [agg2Step, hu]
          by_cases hs : s = ""
          · rw [if_pos hs]; exact h
          · rw [if_neg hs]
            exact upsert_keys_mono assoc _ k₀ _ _ h

/-- Every kept edge leaves its grouping key in the output of the
second grouping loop. -/
theorem agg2_key_of_edge (parse : String → Option String) :
    ∀ (edges : List RawEdge) (assoc : List (String × Agg)) (e : RawEdge)
      (u : String), e ∈ edges → e.url_to = some u → u ≠ "" →
      keyOfUrl parse u ∈ (edges.foldl (agg2Step parse) assoc).map Prod.fst := by
  intro edges
  induction edges with
  | nil => intro assoc e u h; simp at h
  | cons e' es ih =>
      intro assoc e u hmem hu hne
      rcases List.mem_cons.mp hmem with hmem | hmem
      · subst hmem
        rw [List.foldl_cons]
        refine agg2_keys_mono parse es _ _ ?_
        simp only [agg2Step, hu]
        rw [if_neg hne]
        exact upsert_key_mem assoc _ _ _
      · exact ih _ e u hmem hu hne

/-- An edge is fatal to the public grouping loop when its target URL
is missing or does not parse. -/
def badPub (parse : String → Option String) (e : RawEdge) : Bool :=
  match e.url_to with
  | none => true
  | some s => (parse s).isNone

theorem aggregatePublic_error_iff (parse : String → Option String) :
    ∀ (edges : List RawEdge) (assoc : List (String × Agg)),
      (List.foldlM (aggPubStep parse) assoc edges =
        Except.error "Failed to parse API response") ↔
      ∃ e ∈ edges, badPub parse e = true := by
  intro edges
  induction edges with
  | nil =>
      intro assoc
      simp [List.foldlM, pure, Except.pure]
  | cons e es ih =>
      intro assoc
      rw [List.foldlM_cons]
      cases hu : e.url_to with
      | none =>
          simp only [aggPubStep, hu, bind, Except.bind]
          constructor
          · intro _
            exact ⟨e, List.mem_cons_self _ _, by simp [badPub, hu]⟩
          · intro _
            trivial
      | some s =>
          cases hp : parse s with
          | none =>
              simp only [aggPubStep, hu, hp, bind, Except.bind]
              constructor
              · intro _
                exact ⟨e, List.mem_cons_self _ _, by simp [badPub, hu, hp]⟩
              · intro _
                trivial
          | some p =>
              simp only [aggPubStep, hu, hp, bind, Except.bind]
              rw [ih]
              constructor
              · intro h
                obtain ⟨e₂, hmem, hbad⟩ := h
                exact ⟨e₂, List.mem_cons_of_mem _ hmem, hbad⟩
              · intro h
                obtain ⟨e₂, hmem, hbad⟩ := h
                rcases List.mem_cons.mp hmem with hmem | hmem
                · subst hmem
                  simp [badPub, hu, hp] at hbad
                · exact ⟨e₂, hmem, hbad⟩

/-- Appending to a fixed string on the left is injective; hence two
different dates give two different rate-limit keys. -/
theorem string_append_cancel (s t u : String) (h : s ++ t = s ++ u) :
    t = u := by
  have h2 : (s ++ t).data = (s ++ u).data := congrArg String.data h
  rw [String.data_append, String.data_append] at h2
  have h3 := List.append_cancel_left h2
  cases t
  cases u
  exact congrArg String.mk h3

theorem rateLimitKey_inj (norm t1 t2 : String)
    (h : rateLimitKey norm t1 = rateLimitKey norm t2) : t1 = t2 := by
  rw [rateLimitKey, rateLimitKey] at h
  exact string_append_cancel (norm ++ "-") t1 t2 h

/-- A record produced by the per-item probe body carries status 404 or
410: the only statuses the filter keeps. -/
theorem probeItem_status (parse : String → Option String)
    (probe : String → Nat) (domain : String) (item : ResultItem)
    (r : DeadRecord) (h : probeItem parse probe domain item = some r) :
    r.status_code = 404 ∨ r.status_code = 410 := by
  simp only [probeItem] at h
  by_cases h1 : resolveUrl domain item = ""
  · rw [if_pos h1] at h
    exact Option.noConfusion h
  · rw [if_neg h1] at h
    by_cases h2 : probe (resolveUrl domain item) = 404 ∨
        probe (resolveUrl domain item) = 410
    · rw [if_pos h2] at h
      split at h
      · exact Option.noConfusion h
      · cases h
        exact h2
    · rw [if_neg h2] at h
      exact Option.noConfusion h

/-- A record produced by the public dead filter carries status 404 or
410: statuses 404 and 410 pass through, status 0 is stored as 404. -/
theorem pubStep_status (probe : String → Nat) (a : Agg) (r : PubRecord)
    (h : pubStep probe a = some r) :
    r.status_code = 404 ∨ r.status_code = 410 := by
  simp only [pubStep] at h
  by_cases h1 : probe (a.target_url.getD "") = 404 ∨
      probe (a.target_url.getD "") = 410 ∨ probe (a.target_url.getD "") = 0
  · rw [if_pos h1] at h
    cases h
    rcases h1 with h1 | h1 | h1 <;> simp [h1]
  · rw [if_neg h1] at h
    exact Option.noConfusion h

/-! The claims. -/

/-- C1, counterexample: the claim fails on the second grouping
variant.  A non-empty raw-edge list whose only edge has a missing
target URL produces no accumulator at all, so the sum of
backlink_count is 0 while the number of input edges is 1: an edge with
a missing target URL is skipped, not counted. -/
theorem c1_counterexample :
    sumCounts (aggregate2 (fun _ => none) [⟨none, none, none, none⟩]) = 0 ∧
    ([(⟨none, none, none, none⟩ : RawEdge)]).length = 1 ∧
    (0 : Nat) ≠ 1 :=
  ⟨rfl, rfl, by decide⟩

/-- C1, amended: for every raw-edge list, the sum of backlink_count
over the accumulators of the second grouping variant equals the number
of input edges whose target URL is present and non-empty (edges with a
missing or empty target URL are skipped by its continue); the first
grouping variant counts every edge, missing and unparseable target
URLs included. -/
theorem c1_sum_backlink_counts (parse : String → Option String)
    (edges : List RawEdge) (_hne : edges ≠ []) :
    sumCounts (aggregate2 parse edges) =
      (edges.filter (fun e => jsTruthy e.url_to)).length ∧
    sumCounts (aggregate1 parse edges) = edges.length := by
  constructor
  · rw [aggregate2, sumCounts_foldl_agg2]
    simp [sumCounts]
  · rw [aggregate1, sumCounts_foldl_agg1]
    simp [sumCounts]

/-- C1, witness: the amended theorem applied to a one-edge list with a
present target URL. -/
theorem c1_witness :
    sumCounts (aggregate2 (fun _ => some "/x")
        [⟨some "https://a/x", none, some "d", none⟩]) =
      (([(⟨some "https://a/x", none, some "d", none⟩ : RawEdge)]).filter
        (fun e => jsTruthy e.url_to)).length ∧
    sumCounts (aggregate1 (fun _ => some "/x")
        [⟨some "https://a/x", none, some "d", none⟩]) =
      ([(⟨some "https://a/x", none, some "d", none⟩ : RawEdge)]).length :=
  c1_sum_backlink_counts (fun _ => some "/x")
    [⟨some "https://a/x", none, some "d", none⟩] (by decide)

/-- C2, counterexample: the claim fails on both probing variants.  In
the batch-probing variant a target probing to status 0 is filtered out
of the dead-page output entirely, and in the public variant it is kept
but recorded with status code 404, not 0. -/
theorem c2_counterexample :
    filterDeadPages (fun _ => some "/x") (fun _ => 0) "d"
      [{ dead_page := "/x", target_url := some "https://d/x",
         backlink_count := 1, top_referrers := [],
         referring_domains_count := 1, status_code := none }] = [] ∧
    (pubStep (fun _ => 0) (initAgg "/x" (some "https://d/x"))).map
      (fun r => r.status_code) = some 404 ∧
    (404 : Nat) ≠ 0 :=
  ⟨rfl, rfl, by decide⟩

/-- C2, amended: a target probing to status 0 never appears in the
dead-page output of the batch-probing variant, whose filter keeps only
404 and 410; the public variant does treat status 0 as dead, but
records it with status code 404 (status JS-or 404), not 0. -/
theorem c2_status0_handling (parse : String → Option String)
    (probe : String → Nat) (domain : String) (results : List ResultItem)
    (a : Agg) (h0 : probe (a.target_url.getD "") = 0) :
    (∀ r ∈ filterDeadPages parse probe domain results,
        r.status_code = 404 ∨ r.status_code = 410) ∧
    (∃ r, pubStep probe a = some r ∧ r.status_code = 404) := by
  constructor
  · intro r hr
    rw [filterDeadPages, mem_sortDesc, deadCandidates] at hr
    rcases List.mem_filterMap.mp hr with ⟨item, _, hpi⟩
    exact probeItem_status parse probe domain item r hpi
  · refine ⟨{ dead_page := a.dead_page, target_url := a.target_url,
              backlink_count := a.backlink_count,
              referring_domains := a.referring_domains.length,
              top_referrers := a.top_referrers,
              status_code := 404 }, ?_, rfl⟩
    simp [pubStep, h0]

/-- C2, witness: the amended theorem applied to a probe that returns
status 0 everywhere. -/
theorem c2_witness :
    (∀ r ∈ filterDeadPages (fun _ => some "/x") (fun _ => 0) "d" [],
        r.status_code = 404 ∨ r.status_code = 410) ∧
    (∃ r, pubStep (fun _ => 0) (initAgg "/x" (some "u")) = some r ∧
        r.status_code = 404) :=
  c2_status0_handling (fun _ => some "/x") (fun _ => 0) "d" []
    (initAgg "/x" (some "u")) rfl

/-- C3, counterexample: the claim fails on the first grouping variant,
which pushes a top referrer for every edge while the list is below the
cap, without checking whether the referring domain is already
represented.  Two edges from the same source domain to the same target
give top_referrers length 2 while there is only 1 distinct referring
domain, so the claimed bound min(10, 1) = 1 is violated. -/
theorem c3_counterexample :
    (aggregate1 (fun _ => some "/a")
        [⟨some "u", some "f", some "d", none⟩,
         ⟨some "u", some "f", some "d", none⟩]).map
      (fun p => (p.2.top_referrers.length, p.2.referring_domains.length)) =
      [(2, 1)] ∧
    ¬ (2 ≤ min 10 1) :=
  ⟨rfl, by decide⟩

/-- C3, amended: the second grouping variant satisfies the claimed
bound, appending a top referrer only together with a fresh referring
domain and only below the cap of 10, so len(top_referrers) is at most
min(10, number of referring domains); the first variant only
guarantees the cap of 10. -/
theorem c3_top_referrers_cap (parse : String → Option String)
    (edges : List RawEdge) (k : String) (a : Agg)
    (h2 : (k, a) ∈ aggregate2 parse edges) :
    a.top_referrers.length ≤ min 10 a.referring_domains.length ∧
    ∀ (k1 : String) (a1 : Agg), (k1, a1) ∈ aggregate1 parse edges →
      a1.top_referrers.length ≤ 10 := by
  constructor
  · have h := aggregate2_refInv parse edges (k, a) h2
    rw [refInv] at h
    exact Nat.le_min.mpr h
  · intro k1 a1 h1
    exact aggregate1_top10 parse edges (k1, a1) h1

/-- The accumulator the one-edge list of the C3 witness produces. -/
def c3Agg : Agg :=
  { dead_page := "/a", target_url := some "u", backlink_count := 1,
    referring_domains := [some "d"],
    top_referrers := [{ domain := some "d", url := some "f",
                        domain_rank := 0, backlinks := 1 }],
    status_code := none }

/-- C3, witness: the amended theorem applied to a one-edge list and
the accumulator it produces. -/
theorem c3_witness :
    c3Agg.top_referrers.length ≤ min 10 c3Agg.referring_domains.length ∧
    ∀ (k1 : String) (a1 : Agg),
      (k1, a1) ∈ aggregate1 (fun _ => some "/a")
        [⟨some "u", some "f", some "d", none⟩] →
      a1.top_referrers.length ≤ 10 :=
  c3_top_referrers_cap (fun _ => some "/a")
    [⟨some "u", some "f", some "d", none⟩] "/a" c3Agg (by decide)

/-- C5: the ranker output of the batch-probing variant is sorted
non-increasing by backlink_count, never exceeds the result cap of 1000
(its input is already capped at 100 probed targets), and every emitted
record carries a status in the dead-status set, here 404, 410 or the
unreachable sentinel 0; the same holds for the sort-and-slice ranker
of the public variant. -/
theorem c5_ranker (parse : String → Option String) (probe : String → Nat)
    (domain : String) (results : List ResultItem)
    (assoc : List (String × Agg)) :
    (filterDeadPages parse probe domain results).Sorted
        (fun a b => b.backlink_count ≤ a.backlink_count) ∧
    (filterDeadPages parse probe domain results).length ≤ 1000 ∧
    (∀ r ∈ filterDeadPages parse probe domain results,
        r.status_code = 404 ∨ r.status_code = 410 ∨ r.status_code = 0) ∧
    (publicRank probe assoc).Sorted
        (fun a b => b.backlink_count ≤ a.backlink_count) ∧
    (publicRank probe assoc).length ≤ 1000 ∧
    (∀ r ∈ publicRank probe assoc,
        r.status_code = 404 ∨ r.status_code = 410 ∨ r.status_code = 0) := by
  refine ⟨?_, ?_, ?_, ?_, ?_, ?_⟩
  · rw [filterDeadPages]
    exact sorted_sortDesc _ _
  · rw [filterDeadPages, length_sortDesc, deadCandidates]
    calc (List.filterMap (probeItem parse probe domain) (results.take 100)).length
        ≤ (results.take 100).length := List.length_filterMap_le _ _
      _ ≤ 100 := by simp
      _ ≤ 1000 := by omega
  · intro r hr
    rw [filterDeadPages, mem_sortDesc, deadCandidates] at hr
    rcases List.mem_filterMap.mp hr with ⟨item, _, hpi⟩
    rcases probeItem_status parse probe domain item r hpi with h | h
    · exact Or.inl h
    · exact Or.inr (Or.inl h)
  · rw [publicRank]
    exact List.Pairwise.sublist (List.take_sublist _ _) (sorted_sortDesc _ _)
  · rw [publicRank]
    simp
  · intro r hr
    rw [publicRank] at hr
    have hr2 := (List.take_sublist _ _).subset hr
    rw [mem_sortDesc] at hr2
    rcases List.mem_filterMap.mp hr2 with ⟨a, _, hps⟩
    rcases pubStep_status probe a r hps with h | h
    · exact Or.inl h
    · exact Or.inr (Or.inl h)

/-- C5, witness: the theorem applied to a concrete grouped result and
a concrete aggregate, with the per-record membership hypotheses
discharged on concrete dead records. -/
theorem c5_witness :
    (({ dead_page := "https://d/x", dead_page_path := "/x",
        status_code := 404, backlink_count := 2, referring_domains := 1,
        top_referrers := [] } : DeadRecord).status_code = 404 ∨
      ({ dead_page := "https://d/x", dead_page_path := "/x",
         status_code := 404, backlink_count := 2, referring_domains := 1,
         top_referrers := [] } : DeadRecord).status_code = 410 ∨
      ({ dead_page := "https://d/x", dead_page_path := "/x",
         status_code := 404, backlink_count := 2, referring_domains := 1,
         top_referrers := [] } : DeadRecord).status_code = 0) ∧
    (({ dead_page := "/x", target_url := some "u", backlink_count := 0,
        referring_domains := 0, top_referrers := [],
        status_code := 404 } : PubRecord).status_code = 404 ∨
      ({ dead_page := "/x", target_url := some "u", backlink_count := 0,
         referring_domains := 0, top_referrers := [],
         status_code := 404 } : PubRecord).status_code = 410 ∨
      ({ dead_page := "/x", target_url := some "u", backlink_count := 0,
         referring_domains := 0, top_referrers := [],
         status_code := 404 } : PubRecord).status_code = 0) :=
  ⟨(c5_ranker (fun _ => some "/x") (fun _ => 404) "d"
      [{ dead_page := "/x", target_url := some "https://d/x",
         backlink_count := 2, top_referrers := [],
         referring_domains_count := 1, status_code := none }]
      [("/x", initAgg "/x" (some "u"))]).2.2.1 _ (by decide),
   (c5_ranker (fun _ => some "/x") (fun _ => 404) "d"
      [{ dead_page := "/x", target_url := some "https://d/x",
         backlink_count := 2, top_referrers := [],
         referring_domains_count := 1, status_code := none }]
      [("/x", initAgg "/x" (some "u"))]).2.2.2.2.2 _ (by decide)⟩

/-- C6, counterexample: the claim fails on the timeout half.  When the
lightweight HEAD request times out, the timeout handler destroys the
request and resolves 0 at once, so the fallback GET status is never
used: with a fallback that would answer 200, the recorded status is 0,
not 200. -/
theorem c6_counterexample :
    (checkUrlStatusModel (fun _ => true)
      ⟨NetOutcome.timedOut, NetOutcome.response 200⟩
      "https://example.com/a").1 = 0 ∧ (0 : Nat) ≠ 200 :=
  ⟨rfl, by decide⟩

/-- C6, amended: on a transport error of the HEAD request a fallback
GET with the same URL and the same 8000 ms timeout is issued and its
response status is used, with 0 recorded when the fallback also errors
or times out; on a HEAD timeout, however, status 0 is recorded
directly and the fallback result is discarded. -/
theorem c6_fallback_behaviour (parseOk : String → Bool) (url : String)
    (n : Nat) (g : NetOutcome) (hp : parseOk url = true) :
    checkUrlStatusModel parseOk ⟨NetOutcome.err, NetOutcome.response n⟩ url =
      (n, [⟨"HEAD", url, 8000⟩, ⟨"GET", url, 8000⟩]) ∧
    (checkUrlStatusModel parseOk ⟨NetOutcome.err, NetOutcome.err⟩ url).1 = 0 ∧
    (checkUrlStatusModel parseOk ⟨NetOutcome.err, NetOutcome.timedOut⟩ url).1 = 0 ∧
    (checkUrlStatusModel parseOk ⟨NetOutcome.timedOut, g⟩ url).1 = 0 := by
  refine ⟨?_, ?_, ?_, ?_⟩ <;> simp [checkUrlStatusModel, hp]

/-- C6, witness: the amended theorem applied to a parseable URL, a
fallback status of 200 and a spare fallback outcome. -/
theorem c6_witness :
    checkUrlStatusModel (fun _ => true)
        ⟨NetOutcome.err, NetOutcome.response 200⟩ "https://a/b" =
      (200, [⟨"HEAD", "https://a/b", 8000⟩, ⟨"GET", "https://a/b", 8000⟩]) ∧
    (checkUrlStatusModel (fun _ => true)
        ⟨NetOutcome.err, NetOutcome.err⟩ "https://a/b").1 = 0 ∧
    (checkUrlStatusModel (fun _ => true)
        ⟨NetOutcome.err, NetOutcome.timedOut⟩ "https://a/b").1 = 0 ∧
    (checkUrlStatusModel (fun _ => true)
        ⟨NetOutcome.timedOut, NetOutcome.response 7⟩ "https://a/b").1 = 0 :=
  c6_fallback_behaviour (fun _ => true) "https://a/b" 200
    (NetOutcome.response 7) rfl

/-- C7, counterexample: the claim fails on the public variant, whose
unguarded new URL(targetUrl).pathname makes aggregation abort with the
parse-error result as soon as one edge has an unparseable target URL,
dropping every edge. -/
theorem c7_counterexample :
    aggregatePublic (fun _ => none)
      [⟨some "bad", some "f", some "d", none⟩] =
      Except.error "Failed to parse API response" := rfl

/-- C7, amended: in the guarded second grouping variant an edge whose
present, non-empty target URL fails to parse is grouped under the raw
URL string and still counted (the aggregate exists and has a positive
backlink count), and the grouping is total; the public variant instead
aborts the whole aggregation with the parse-error result. -/
theorem c7_unparseable_guarded (parse : String → Option String)
    (edges : List RawEdge) (e : RawEdge) (u : String)
    (hmem : e ∈ edges) (hu : e.url_to = some u) (hne : u ≠ "")
    (hbad : parse u = none) :
    keyOfUrl parse u = u ∧
    (∃ a : Agg, (u, a) ∈ aggregate2 parse edges ∧ 1 ≤ a.backlink_count) ∧
    aggregatePublic parse edges = Except.error "Failed to parse API response" := by
  have hkey : keyOfUrl parse u = u := by rw [keyOfUrl, hbad]
  refine ⟨hkey, ?_, ?_⟩
  · have hk := agg2_key_of_edge parse edges [] e u hmem hu hne
    rw [hkey] at hk
    rw [show List.foldl (agg2Step parse) [] edges = aggregate2 parse edges from rfl] at hk
    rcases List.mem_map.mp hk with ⟨kv, hkv, hfst⟩
    obtain ⟨k', a⟩ := kv
    cases hfst
    exact ⟨a, hkv, aggregate2_count_pos parse edges (k', a) hkv⟩
  · rw [aggregatePublic, aggregatePublic_error_iff]
    exact ⟨e, hmem, by simp [badPub, hu, hbad]⟩

/-- C7, witness: the amended theorem applied to a one-edge list whose
target URL does not parse. -/
theorem c7_witness :
    keyOfUrl (fun _ => none) "bad" = "bad" ∧
    (∃ a : Agg, ("bad", a) ∈ aggregate2 (fun _ => none)
        [⟨some "bad", some "f", some "d", none⟩] ∧ 1 ≤ a.backlink_count) ∧
    aggregatePublic (fun _ => none) [⟨some "bad", some "f", some "d", none⟩] =
      Except.error "Failed to parse API response" :=
  c7_unparseable_guarded (fun _ => none)
    [⟨some "bad", some "f", some "d", none⟩]
    ⟨some "bad", some "f", some "d", none⟩ "bad"
    (by decide) rfl (by decide) rfl

/-- C8: aggregation followed by ranking is deterministic: the pipeline
is a pure function of the raw edges and the probe results, so two runs
on the same input give the same output; moreover the output is the
stable descending sort of the dead candidates: it is sorted by
backlink_count and, at every fixed backlink_count, keeps exactly the
candidate subsequence in aggregator order (ties keep their order). -/
theorem c8_deterministic_stable (parse : String → Option String)
    (probe : String → Nat) (domain : String) (edges : List RawEdge) :
    pipelineScan parse probe domain edges =
      pipelineScan parse probe domain edges ∧
    (pipelineScan parse probe domain edges).Sorted
        (fun a b => b.backlink_count ≤ a.backlink_count) ∧
    ∀ k : Nat, (pipelineScan parse probe domain edges).filter
        (fun r => r.backlink_count == k) =
      (deadCandidates parse probe domain (groupRank2 parse edges)).filter
        (fun r => r.backlink_count == k) := by
  refine ⟨rfl, ?_, ?_⟩
  · rw [pipelineScan, filterDeadPages]
    exact sorted_sortDesc _ _
  · intro k
    rw [pipelineScan, filterDeadPages]
    exact filter_sortDesc _ k _

/-- C10: the per-target probe is total: for every parse oracle, every
environment of network outcomes and every URL string the model
resolves to a numeric status with a definite request trace, and a URL
the parser rejects resolves to status 0 with no network request issued,
in both probing variants. -/
theorem c10_probe_total (parseOk : String → Bool) (env : ProbeEnv)
    (head : NetOutcome) (url : String) :
    (∃ n reqs, checkUrlStatusModel parseOk env url = (n, reqs)) ∧
    (parseOk url = false → checkUrlStatusModel parseOk env url = (0, [])) ∧
    (parseOk url = false → checkUrlStatusPublic parseOk head url = (0, [])) := by
  refine ⟨⟨_, _, rfl⟩, ?_, ?_⟩
  · intro h
    simp [checkUrlStatusModel, h]
  · intro h
    simp [checkUrlStatusPublic, h]

/-- C10, witness: the theorem applied to a rejecting parse oracle. -/
theorem c10_witness :
    checkUrlStatusModel (fun _ => false)
      ⟨NetOutcome.err, NetOutcome.err⟩ "notaurl" = (0, []) ∧
    checkUrlStatusPublic (fun _ => false) NetOutcome.err "notaurl" = (0, []) :=
  ⟨(c10_probe_total (fun _ => false) ⟨NetOutcome.err, NetOutcome.err⟩
      NetOutcome.err "notaurl").2.1 rfl,
   (c10_probe_total (fun _ => false) ⟨NetOutcome.err, NetOutcome.err⟩
      NetOutcome.err "notaurl").2.2 rfl⟩

/-- Every branch of the public handler returns the CORS headers, and
only the OPTIONS branch returns the empty body. -/
theorem handlerPublic_shape (ev : Event) (env : PubEnv)
    (today now : String) (cache : List String) :
    (handlerPublic ev env today now cache).1.headers = corsHeaders ∧
    ((handlerPublic ev env today now cache).1.body = BodyVal.empty ↔
      ev.httpMethod = HMethod.options) := by
  obtain ⟨m, b⟩ := ev
  obtain ⟨lg, pw, ar⟩ := env
  cases m <;> rcases b with msg | df <;> try rcases df with _ | s | emsg
  all_goals cases ar
  all_goals simp only [handlerPublic]
  all_goals try split_ifs
  all_goals simp_all

/-- Every branch of the batch-probing handler returns the CORS
headers, and only the OPTIONS branch returns the empty body. -/
theorem handlerScan_shape (ev : Event) (envS : ScanEnv) (now : String) :
    (handlerScan ev envS now).headers = corsHeaders ∧
    ((handlerScan ev envS now).body = BodyVal.empty ↔
      ev.httpMethod = HMethod.options) := by
  obtain ⟨m, b⟩ := ev
  obtain ⟨lgS, pwS, arS, prs, prb⟩ := envS
  cases m <;> rcases b with msg | df <;> try rcases df with _ | s | emsg
  all_goals cases arS
  all_goals simp only [handlerScan]
  all_goals try split_ifs
  all_goals simp_all

/-- C4, counterexample: the claim fails because check and mark are not
one atomic operation.  With an environment whose upstream call fails,
a first scan of a fresh (domain, date) is allowed but leaves the cache
unchanged, so a second identical call is again allowed (it answers 500
from the upstream failure, not 429), contradicting allowed-then-not-
allowed regardless of what happens later in the scan. -/
theorem c4_counterexample :
    (handlerPublic ⟨HMethod.post, BodyParse.parsed (DomainField.str "a.b")⟩
        ⟨some "l", some "p", Except.error "x"⟩ "t1" "n" []).2 = [] ∧
    (handlerPublic ⟨HMethod.post, BodyParse.parsed (DomainField.str "a.b")⟩
        ⟨some "l", some "p", Except.error "x"⟩ "t1" "n"
        ((handlerPublic ⟨HMethod.post, BodyParse.parsed (DomainField.str "a.b")⟩
          ⟨some "l", some "p", Except.error "x"⟩ "t1" "n" []).2)).1.statusCode = 500 ∧
    (500 : Nat) ≠ 429 :=
  ⟨by decide, by decide, by decide⟩

/-- C4, amended: the rate-limit check and mark are two separate steps
with the upstream call between them: the key is inserted only after a
successful scan.  Two consecutive calls with the same (domain, date)
return allowed then not-allowed provided the first scan succeeds (with
a failing scan the key is never marked and the second call is allowed
again, as the counterexample shows); a different date for the same
domain gives a different key and is allowed again. -/
theorem c4_check_then_mark (d today today2 now now2 : String)
    (env env2 : PubEnv) (results results2 : List PubRecord)
    (hd : d ≠ "") (hok : env.apiResult = Except.ok results)
    (hok2 : env2.apiResult = Except.ok results2)
    (hlog : jsTruthy env.login = true) (hpw : jsTruthy env.password = true)
    (hlog2 : jsTruthy env2.login = true) (hpw2 : jsTruthy env2.password = true)
    (hdate : today2 ≠ today) :
    (handlerPublic ⟨HMethod.post, BodyParse.parsed (DomainField.str d)⟩
      env today now []).1.statusCode = 200 ∧
    (handlerPublic ⟨HMethod.post, BodyParse.parsed (DomainField.str d)⟩
      env today now []).2 = [rateLimitKey (normalizeDomain d) today] ∧
    (handlerPublic ⟨HMethod.post, BodyParse.parsed (DomainField.str d)⟩
      env2 today now2 [rateLimitKey (normalizeDomain d) today]).1.statusCode = 429 ∧
    (handlerPublic ⟨HMethod.post, BodyParse.parsed (DomainField.str d)⟩
      env2 today now2 [rateLimitKey (normalizeDomain d) today]).2 =
      [rateLimitKey (normalizeDomain d) today] ∧
    (handlerPublic ⟨HMethod.post, BodyParse.parsed (DomainField.str d)⟩
      env2 today2 now2 [rateLimitKey (normalizeDomain d) today]).1.statusCode = 200 := by
  have hkey : rateLimitKey (normalizeDomain d) today2 ≠
      rateLimitKey (normalizeDomain d) today := by
    intro hcontra
    exact hdate (rateLimitKey_inj _ _ _ hcontra)
  refine ⟨?_, ?_, ?_, ?_, ?_⟩ <;>
    simp [handlerPublic, hd, hok, hok2, hlog, hpw, hlog2, hpw2, hkey,
      List.contains]

/-- C4, witness: the amended theorem applied to a concrete domain, two
concrete dates and environments whose upstream call succeeds. -/
theorem c4_witness :
    (handlerPublic ⟨HMethod.post, BodyParse.parsed (DomainField.str "a.b")⟩
      ⟨some "l", some "p", Except.ok []⟩ "t1" "n" []).1.statusCode = 200 ∧
    (handlerPublic ⟨HMethod.post, BodyParse.parsed (DomainField.str "a.b")⟩
      ⟨some "l", some "p", Except.ok []⟩ "t1" "n" []).2 =
      [rateLimitKey (normalizeDomain "a.b") "t1"] ∧
    (handlerPublic ⟨HMethod.post, BodyParse.parsed (DomainField.str "a.b")⟩
      ⟨some "l", some "p", Except.ok []⟩ "t1" "n"
      [rateLimitKey (normalizeDomain "a.b") "t1"]).1.statusCode = 429 ∧
    (handlerPublic ⟨HMethod.post, BodyParse.parsed (DomainField.str "a.b")⟩
      ⟨some "l", some "p", Except.ok []⟩ "t1" "n"
      [rateLimitKey (normalizeDomain "a.b") "t1"]).2 =
      [rateLimitKey (normalizeDomain "a.b") "t1"] ∧
    (handlerPublic ⟨HMethod.post, BodyParse.parsed (DomainField.str "a.b")⟩
      ⟨some "l", some "p", Except.ok []⟩ "t2" "n"
      [rateLimitKey (normalizeDomain "a.b") "t1"]).1.statusCode = 200 :=
  c4_check_then_mark "a.b" "t1" "t2" "n" "n"
    ⟨some "l", some "p", Except.ok []⟩ ⟨some "l", some "p", Except.ok []⟩
    [] [] (by decide) rfl rfl rfl rfl rfl rfl (by decide)

/-- C9, counterexample: the claim fails on the OPTIONS preflight path,
whose response body is the empty string, not JSON. -/
theorem c9_counterexample :
    (handlerPublic ⟨HMethod.options, BodyParse.parsed DomainField.absent⟩
        ⟨some "l", some "p", Except.error "x"⟩ "t" "n" []).1.body =
      BodyVal.empty :=
  rfl

/-- C9, amended: on every path of both scan handlers the response
carries the same four CORS/content-type headers, and the body is one
of the JSON.stringify shapes on every path except the OPTIONS
preflight, whose body is the empty string; both handlers are total
functions of the event and environment (the try/catch turns thrown
body-parse and toLowerCase errors into the 500 branch). -/
theorem c9_headers_and_bodies (ev : Event) (env : PubEnv) (envS : ScanEnv)
    (today now : String) (cache : List String) :
    (handlerPublic ev env today now cache).1.headers = corsHeaders ∧
    ((handlerPublic ev env today now cache).1.body = BodyVal.empty ↔
      ev.httpMethod = HMethod.options) ∧
    (handlerScan ev envS now).headers = corsHeaders ∧
    ((handlerScan ev envS now).body = BodyVal.empty ↔
      ev.httpMethod = HMethod.options) :=
  ⟨(handlerPublic_shape ev env today now cache).1,
   (handlerPublic_shape ev env today now cache).2,
   (handlerScan_shape ev envS now).1,
   (handlerScan_shape ev envS now).2⟩

end ScreamingFixes
